import Mathlib

/-!
Verification development for the "Jingjai Master Control" business-management
application: a shallow embedding of the client-upsert transaction (sequential
ID allocator, tax-ID uniqueness index, record writes), the client delete
operation, the inventory quantity-adjustment procedure, and the booking
conflict checker, together with theorems about the invariants and behaviors
of these operations.

Modelling conventions:
* The document store is embedded as explicit state (association lists keyed
  by document ID).  A Firestore transaction is all-or-nothing: an aborted
  transaction returns the original state unchanged.  Reads see the
  pre-transaction snapshot, and the Firestore SDK additionally rejects any
  transaction read issued after a staged write ("Firestore transactions
  require all reads to be executed before all writes.", thrown as a plain
  error and surfaced by the catch block as the internal error kind).  In the
  edit and delete paths every read precedes every write, so threading the
  state sequentially is faithful there; in the create path the
  uniqueness-index read follows the counter write, so a create with a
  non-empty normalized tax key always aborts with the internal
  read-after-write error before reaching the exists check.
* Client documents get consecutive natural numbers as their auto-generated
  primary keys (a fresh-name abstraction of Firestore's random document IDs).
* Server timestamps (createdAt / updatedAt) are environmental and carry no
  information used by any behavior proved here; they are omitted from the
  embedded records.
* JavaScript strings are modelled by Lean `String`; `trim`, `toUpperCase`,
  single-character `replace`, and lexicographic `<` are re-implemented over
  the character list so that they compute by kernel reduction.  They agree
  with the JavaScript operations on the ASCII range.
* JavaScript numbers appearing in the inventory ledger are modelled as
  `Option Int` (`none` standing for the non-finite results NaN/Infinity);
  `Number(string)` parsing is modelled for integer literals, any other
  non-empty non-numeric string yielding NaN, as in JavaScript.
-/

namespace JPS

/-! ## JavaScript string primitives -/

/-- Whitespace recognized by JavaScript `trim` (ASCII portion). -/
def wsChar (c : Char) : Bool :=
  c = ' ' || c = '\t' || c = '\n' || c = '\r' || c = '\x0b' || c = '\x0c'

/-- JavaScript `String.prototype.trim` (ASCII whitespace). -/
def jsTrim (s : String) : String :=
  ⟨((s.data.dropWhile wsChar).reverse.dropWhile wsChar).reverse⟩

/-- JavaScript `String.prototype.toUpperCase` (ASCII letters). -/
def jsUpper (s : String) : String :=
  ⟨s.data.map Char.toUpper⟩

/-- The helper `toStr`: `(v ?? "").toString().trim()` applied to a
string-or-undefined value. -/
def toStrO (v : Option String) : String :=
  jsTrim (v.getD "")

/-- The helper `up`: `toStr(v).toUpperCase()`. -/
def upJs (s : String) : String :=
  jsUpper (jsTrim s)

/-- The helper `keyify`: uppercase the trimmed string and replace every `/`
by `_` (Firestore document IDs cannot contain `/`). -/
def keyify (s : String) : String :=
  ⟨(upJs s).data.map (fun c => if c = '/' then '_' else c)⟩

/-- JavaScript `x || d` for a string-or-undefined `x` and string default `d`:
the default is taken when `x` is undefined or the empty string (falsy). -/
def jsOrStr (v : Option String) (d : String) : String :=
  match v with
  | none => d
  | some s => if s = "" then d else s

/-- JavaScript `<` on strings: lexicographic comparison by code unit. -/
def charsLt : List Char → List Char → Bool
  | [], [] => false
  | [], _ :: _ => true
  | _ :: _, [] => false
  | a :: as, b :: bs => a.val < b.val || (a = b && charsLt as bs)

/-- JavaScript string comparison `a < b`. -/
def strLt (a b : String) : Bool :=
  charsLt a.data b.data

/-! ## Document collections as association lists

Keys are unique by construction (`kvSet` overwrites in place), mirroring a
document collection keyed by document ID. -/

def kvGet {α β : Type} [DecidableEq α] : List (α × β) → α → Option β
  | [], _ => none
  | (a, b) :: t, k => if a = k then some b else kvGet t k

def kvSet {α β : Type} [DecidableEq α] : List (α × β) → α → β → List (α × β)
  | [], k, v => [(k, v)]
  | (a, b) :: t, k, v => if a = k then (k, v) :: t else (a, b) :: kvSet t k v

def kvDel {α β : Type} [DecidableEq α] : List (α × β) → α → List (α × β)
  | [], _ => []
  | (a, b) :: t, k => if a = k then kvDel t k else (a, b) :: kvDel t k

/-! ## Client data model (functions source, part_007)

`CleanClient` is the sanitized field set produced by `cleanClient`;
`Payload` is the raw request body `data.client`, with `none` standing for an
absent (undefined) field.  Array elements are taken as strings (the source
coerces every element through `toStr`). -/

structure Address where
  line1 : String
  line2 : String
  city : String
  state : String
  postcode : String
  country : String
deriving DecidableEq

structure Contact where
  name : String
  title : String
  email : String
  phone : String
  isPrimary : Bool
deriving DecidableEq

structure CleanClient where
  legalName : String
  tradingName : String
  website : String
  industry : String
  status : String
  tier : String
  tags : List String
  taxId : String
  vatRegistered : Bool
  ndaOnFile : Bool
  vendorFormUrl : String
  currency : String
  paymentTerms : String
  discountRate : Int
  poRequired : Bool
  billingEmails : List String
  billingAddress : Address
  contacts : List Contact
deriving DecidableEq

structure ContactPayload where
  name : Option String
  title : Option String
  email : Option String
  phone : Option String
  isPrimary : Option Bool
deriving DecidableEq

structure AddressPayload where
  line1 : Option String
  line2 : Option String
  city : Option String
  state : Option String
  postcode : Option String
  country : Option String
deriving DecidableEq

structure Payload where
  legalName : Option String
  tradingName : Option String
  website : Option String
  industry : Option String
  status : Option String
  tier : Option String
  tags : Option (List String)
  taxId : Option String
  vatRegistered : Option Bool
  ndaOnFile : Option Bool
  vendorFormUrl : Option String
  currency : Option String
  paymentTerms : Option String
  discountRate : Option Int
  poRequired : Option Bool
  billingEmails : Option (List String)
  billingAddress : Option AddressPayload
  contacts : Option (List ContactPayload)
deriving DecidableEq

/-- The all-fields-absent request body, used to build concrete payloads. -/
def emptyPayload : Payload :=
  ⟨none, none, none, none, none, none, none, none, none, none, none, none,
   none, none, none, none, none, none⟩

/-- Sanitization of one submitted contact. -/
def cleanContact (c : ContactPayload) : Contact :=
  ⟨toStrO c.name, toStrO c.title, toStrO c.email, toStrO c.phone,
   c.isPrimary.getD false⟩

/-- Sanitization of the submitted billing address; an absent object yields
all-empty fields (`toStr(payload.billingAddress?.line1)` and so on). -/
def cleanAddress : Option AddressPayload → Address
  | none => ⟨"", "", "", "", "", ""⟩
  | some a => ⟨toStrO a.line1, toStrO a.line2, toStrO a.city, toStrO a.state,
               toStrO a.postcode, toStrO a.country⟩

/-- The function `cleanClient` of the functions source (part_007): trim every
string, uppercase the enum-like fields after applying their defaults, coerce
booleans with `!!`, default a non-finite discount rate to 0, drop empty array
entries. -/
def cleanClient (p : Payload) : CleanClient where
  legalName := toStrO p.legalName
  tradingName := toStrO p.tradingName
  website := toStrO p.website
  industry := upJs (jsOrStr p.industry "TV")
  status := upJs (jsOrStr p.status "PROSPECT")
  tier := upJs (jsOrStr p.tier "B")
  tags := ((p.tags.getD []).map jsTrim).filter (fun s => !s.isEmpty)
  taxId := toStrO p.taxId
  vatRegistered := p.vatRegistered.getD false
  ndaOnFile := p.ndaOnFile.getD false
  vendorFormUrl := toStrO p.vendorFormUrl
  currency := upJs (jsOrStr p.currency "THB")
  paymentTerms := upJs (jsOrStr p.paymentTerms "NET 30")
  discountRate := p.discountRate.getD 0
  poRequired := p.poRequired.getD false
  billingEmails := ((p.billingEmails.getD []).map jsTrim).filter (fun s => !s.isEmpty)
  billingAddress := cleanAddress p.billingAddress
  contacts := (p.contacts.getD []).map cleanContact

/-! ## Validation (part_007) -/

def allowedIndustry : List String := ["TV", "FILM", "MUSIC VIDEO", "COMERCIAL", "OTHER"]
def allowedStatus : List String := ["PROSPECT", "ACTIVE", "INACTIVE"]
def allowedTier : List String := ["A", "B", "C"]
def allowedCurrency : List String := ["THB", "USD", "EUR", "GBP"]
def allowedPaymentTerms : List String := ["NET 15", "NET 30", "NET 45", "DUE ON RECEIPT"]

/-- Matcher for the email pattern `^[^\s@]+@[^\s@]+\.[^\s@]+$`: exactly one
`@`; a non-empty whitespace-free local part; a whitespace-free domain that
splits on `.` into at least two parts, the first and last non-empty. -/
def emailRe (s : String) : Bool :=
  match s.data.splitOn '@' with
  | [l, d] =>
    (!l.isEmpty && l.all (fun c => !wsChar c)) &&
    (!d.isEmpty && d.all (fun c => !wsChar c)) &&
    (let ds := d.splitOn '.'
     decide (2 ≤ ds.length) &&
     (match ds.head?, ds.getLast? with
      | some a, some b => !a.isEmpty && !b.isEmpty
      | _, _ => false))
  | _ => false

/-- The helper `isEmail`: an empty (falsy) string passes, otherwise the
regular expression must match.  Inputs reaching it are already trimmed. -/
def isEmail (s : String) : Bool :=
  s.isEmpty || emailRe s

/-- The function `validateClient` (part_007): a field-name to message map of
validation failures, empty exactly when the cleaned client is valid. -/
def validateClient (c : CleanClient) : List (String × String) :=
  (if c.legalName = "" then [("legalName", "Required.")] else []) ++
  (if c.industry ∈ allowedIndustry then [] else [("industry", "Invalid.")]) ++
  (if c.status ∈ allowedStatus then [] else [("status", "Invalid.")]) ++
  (if c.tier ∈ allowedTier then [] else [("tier", "Invalid.")]) ++
  (if c.vatRegistered = true ∧ c.taxId = "" then
    [("taxId", "Required when VAT Registered.")] else []) ++
  (if c.discountRate < 0 ∨ 100 < c.discountRate then
    [("discountRate", "0–100.")] else []) ++
  (if c.currency ∈ allowedCurrency then [] else [("currency", "Invalid.")]) ++
  (if c.paymentTerms ∈ allowedPaymentTerms then [] else [("paymentTerms", "Invalid.")]) ++
  (if c.billingEmails.all isEmail then []
   else [("billingEmails", "One or more emails are invalid.")]) ++
  (c.contacts.enum.filterMap (fun ic =>
    if ic.2.email ≠ "" ∧ isEmail ic.2.email = false then
      some ("contacts." ++ toString ic.1 ++ ".email", "Invalid email.")
    else none))

/-! ## Error taxonomy and store state -/

/-- Machine-readable error kinds surfaced by the callable functions, with the
payload each variant carries in the source. -/
inductive Err where
  | unauthenticated
  | invalidArgument (fieldErrors : List (String × String))
  | invalidArgumentMsg (msg : String)
  | failedPrecondition (msg : String)
  | alreadyExists
  | notFound
  | internalErr (msg : String)
deriving DecidableEq

deriving instance DecidableEq for Except

/-- Discriminator for the failed-precondition error kind. -/
def isFailedPre : Err → Bool
  | .failedPrecondition _ => true
  | _ => false

/-- Discriminator on a call result. -/
def resultFailedPre {α : Type} : Except Err α → Bool
  | .error e => isFailedPre e
  | .ok _ => false

/-- A stored client document.  `data` is the sanitized field set written by
the upsert; `clientId` is the human-facing sequential identifier, written
once at creation and absent from every later update map. -/
structure StoredClient where
  data : CleanClient
  clientId : String
  createdBy : Option String
  updatedBy : Option String
deriving DecidableEq

/-- The relevant slice of the document database: the `clients` collection,
the `unique_taxIds` index collection (normalized key to owning client ID),
the `counters/client` document (`none` when the document or its
`current_value` field is absent), and the fresh-ID source for generated
document IDs. -/
structure DB where
  clients : List (Nat × StoredClient)
  uniqueTaxIds : List (String × Nat)
  counter : Option Int
  nextId : Nat
deriving DecidableEq

/-- The empty store: a fresh system. -/
def initDB : DB := ⟨[], [], none, 0⟩

/-- The current counter reading: `cSnap.exists ? data.current_value ?? 100000
: 100000`. -/
def curOf (s : DB) : Int :=
  match s.counter with
  | some v => v
  | none => 100000

/-! ## The client-upsert transaction (part_007; part_010 has the identical
transaction body) -/

/-- Message of the error thrown by the Firestore SDK when a transaction
read is issued after a staged write. -/
def readAfterWriteMsg : String :=
  "Firestore transactions require all reads to be executed before all writes."

/-- Index maintenance on the edit path: a no-op when the key is unchanged;
otherwise a non-empty new key owned by a different client is a conflict, a
non-empty new key otherwise gets its entry (over)written to this client, and
a non-empty previous key has its entry deleted. -/
def indexCheckEdit (idx : List (String × Nat)) (newKey prevKey : String)
    (eid : Nat) : Except Err (List (String × Nat)) :=
  if newKey = prevKey then .ok idx
  else
    match (if newKey = "" then Except.ok idx
           else
             match kvGet idx newKey with
             | some owner =>
               if owner = eid then Except.ok (kvSet idx newKey eid)
               else Except.error Err.alreadyExists
             | none => Except.ok (kvSet idx newKey eid)) with
    | .error e => .error e
    | .ok idx1 => .ok (if prevKey = "" then idx1 else kvDel idx1 prevKey)

/-- The transaction body of `upsertClient`.  The edit branch loads the
record (not-found if absent), runs edit index maintenance comparing the
normalized new and previous tax keys (all of its reads precede its writes),
and overwrites the record's field set and updated-by audit field.  The
create branch reads the counter (100000 when absent) and stages the
`current + 1` write back; with a non-empty normalized tax key it then
issues `tx.get(uniqueRef)` — a read after that staged write, which the
Firestore SDK rejects, aborting the transaction with the internal
read-after-write error before the exists check; with an empty key no index
read or write happens and the new record is written with
`clientId = "CL-" + next` and both audit fields. -/
def upsertTx (s : DB) (editingId : Option Nat) (clean : CleanClient)
    (user : Option String) : Except Err (DB × Nat) :=
  match editingId with
  | some eid =>
    match kvGet s.clients eid with
    | none => .error .notFound
    | some prev =>
      match indexCheckEdit s.uniqueTaxIds (keyify clean.taxId)
          (keyify prev.data.taxId) eid with
      | .error e => .error e
      | .ok idx =>
        .ok ({ s with
                uniqueTaxIds := idx,
                clients := kvSet s.clients eid
                  { prev with data := clean, updatedBy := user } }, eid)
  | none =>
    let next : Int := curOf s + 1
    let newId := s.nextId
    if keyify clean.taxId ≠ "" then
      .error (.internalErr readAfterWriteMsg)
    else
      .ok ({ clients := kvSet s.clients newId
               ⟨clean, "CL-" ++ toString next, user, user⟩,
             uniqueTaxIds := s.uniqueTaxIds,
             counter := some next,
             nextId := s.nextId + 1 }, newId)

/-- The callable `upsertClient` (part_007): authentication gate, input
sanitization, field validation, then the transaction; a thrown error aborts
the transaction and leaves the store unchanged. -/
def upsertClient (authed : Bool) (s : DB) (editingId : Option Nat)
    (p : Payload) (user : Option String) : DB × Except Err Nat :=
  if authed = false then (s, .error .unauthenticated)
  else
    let clean := cleanClient p
    let fe := validateClient clean
    if fe ≠ [] then (s, .error (.invalidArgument fe))
    else
      match upsertTx s editingId clean user with
      | .error e => (s, .error e)
      | .ok (s', id) => (s', .ok id)

/-- The callable `deleteClient` (part_007): in one transaction, load the
record (not-found if absent), delete the `unique_taxIds` entry for its
non-empty normalized tax key, and delete the record. -/
def deleteClient (authed : Bool) (s : DB) (idOpt : Option Nat) :
    DB × Except Err Unit :=
  if authed = false then (s, .error .unauthenticated)
  else
    match idOpt with
    | none => (s, .error (.invalidArgumentMsg "Client id is required."))
    | some id =>
      match kvGet s.clients id with
      | none => (s, .error .notFound)
      | some doc =>
        ({ s with
            clients := kvDel s.clients id,
            uniqueTaxIds :=
              if keyify doc.data.taxId = "" then s.uniqueTaxIds
              else kvDel s.uniqueTaxIds (keyify doc.data.taxId) }, .ok ())

/-! ## The part_010 variant of `upsertClient`

Its sanitization does not uppercase the enum-like fields, and its validation
is two sequential checks: a required legal name (invalid-argument), then the
VAT business rule (failed-precondition).  Its transaction body is identical
to part_007's and is shared. -/

/-- Sanitization in the part_010 variant. -/
def cleanClientV10 (p : Payload) : CleanClient :=
  { cleanClient p with
      industry := jsTrim (jsOrStr p.industry "TV")
      status := jsTrim (jsOrStr p.status "Prospect")
      tier := jsTrim (jsOrStr p.tier "B")
      currency := jsTrim (jsOrStr p.currency "THB")
      paymentTerms := jsTrim (jsOrStr p.paymentTerms "Net 30") }

/-- The callable `upsertClient` of part_010. -/
def upsertClientV10 (authed : Bool) (s : DB) (editingId : Option Nat)
    (p : Payload) (user : Option String) : DB × Except Err Nat :=
  if authed = false then (s, .error .unauthenticated)
  else
    let clean := cleanClientV10 p
    if clean.legalName = "" then
      (s, .error (.invalidArgumentMsg "Company Legal Name is required."))
    else if clean.vatRegistered = true ∧ clean.taxId = "" then
      (s, .error (.failedPrecondition
        "Tax/VAT ID is required when VAT Registered is checked."))
    else
      match upsertTx s editingId clean user with
      | .error e => (s, .error e)
      | .ok (s', id) => (s', .ok id)

/-! ## Operation traces over the client subsystem -/

/-- An authenticated client-subsystem operation. -/
inductive Op where
  | create (p : Payload) (user : Option String)
  | edit (id : Nat) (p : Payload) (user : Option String)
  | del (id : Nat)
deriving DecidableEq

/-- The state after one operation (ignoring its result). -/
def execOp (s : DB) : Op → DB
  | .create p u => (upsertClient true s none p u).1
  | .edit id p u => (upsertClient true s (some id) p u).1
  | .del id => (deleteClient true s (some id)).1

/-- The state after a sequence of operations. -/
def execList (s : DB) : List Op → DB
  | [] => s
  | op :: ops => execList (execOp s op) ops

/-- The sequential-ID values allocated by the successful creations of a
trace, in order.  On a successful creation the allocator writes and returns
`curOf s + 1`. -/
def allocsFrom (s : DB) : List Op → List Int
  | [] => []
  | .create p u :: ops =>
    (match (upsertClient true s none p u).2 with
     | .ok _ => (curOf s + 1) :: allocsFrom (execOp s (.create p u)) ops
     | .error _ => allocsFrom (execOp s (.create p u)) ops)
  | .edit id p u :: ops => allocsFrom (execOp s (.edit id p u)) ops
  | .del id :: ops => allocsFrom (execOp s (.del id)) ops

/-! ## Index-consistency invariant -/

/-- Every stored client with a non-empty normalized tax key is pointed to by
the index entry of that key. -/
def InvA (s : DB) : Prop :=
  ∀ id r, kvGet s.clients id = some r → keyify r.data.taxId ≠ "" →
    kvGet s.uniqueTaxIds (keyify r.data.taxId) = some id

/-- Every index entry has a non-empty key and points to a stored client
whose normalized tax key is that key. -/
def InvB (s : DB) : Prop :=
  ∀ k cid, kvGet s.uniqueTaxIds k = some cid →
    k ≠ "" ∧ ∃ r, kvGet s.clients cid = some r ∧ keyify r.data.taxId = k

/-- Every client document ID already in use is below the fresh-ID source. -/
def InvC (s : DB) : Prop :=
  ∀ id r, kvGet s.clients id = some r → id < s.nextId

/-- The maintained invariant of the client subsystem. -/
def Inv (s : DB) : Prop :=
  InvA s ∧ InvB s ∧ InvC s

/-- The possible shapes of the index after a successful edit, as a function
of the normalized new key `k`, previous key `pk`, and edited ID `eid`. -/
def IndexEditSpec (idx : List (String × Nat)) (k pk : String) (eid : Nat)
    (idx' : List (String × Nat)) : Prop :=
  (k = pk ∧ idx' = idx) ∨
  (k ≠ pk ∧ k = "" ∧ pk ≠ "" ∧ idx' = kvDel idx pk) ∨
  (k ≠ pk ∧ k ≠ "" ∧ (kvGet idx k = none ∨ kvGet idx k = some eid) ∧
    idx' = (if pk = "" then kvSet idx k eid else kvDel (kvSet idx k eid) pk))

/-! ## Inventory quantity ledger (web source, part_009)

`applyDelta` runs client side: a falsy or non-finite requested delta is a
complete no-op; otherwise a transaction reads the item (returning early,
without writing, when the item does not exist) and writes
`Number(quantity || 0) + delta` back; after the transaction an adjustment
event is appended to the `inventoryEvents` collection. -/

/-- A stored JavaScript field value: a finite number, NaN, a string, or an
absent field. -/
inductive JsVal where
  | jnum (n : Int)
  | jnan
  | jstr (s : String)
  | jmissing
deriving DecidableEq

/-- JavaScript truthiness of a stored value. -/
def truthy : JsVal → Bool
  | .jnum n => decide (n ≠ 0)
  | .jnan => false
  | .jstr s => !s.isEmpty
  | .jmissing => false

/-- JavaScript `v || 0`. -/
def jsOrZero (v : JsVal) : JsVal :=
  if truthy v then v else .jnum 0

/-- Accumulate decimal digits; any non-digit character refuses the parse. -/
def digitsToNat (cs : List Char) : Option Nat :=
  match cs with
  | [] => none
  | _ =>
    cs.foldl (fun acc c =>
      match acc with
      | none => none
      | some n => if c.isDigit then some (n * 10 + (c.toNat - '0'.toNat)) else none)
      (some 0)

/-- Integer-literal slice of JavaScript string-to-number parsing. -/
def parseIntChars : List Char → Option Int
  | '-' :: cs => (digitsToNat cs).map (fun n => -(n : Int))
  | cs => (digitsToNat cs).map (fun n => (n : Int))

/-- JavaScript `Number(v)` restricted to this model: `some n` is the finite
number `n`, `none` is NaN.  `Number("")` and `Number(" ")` are 0; a
non-numeric string and an undefined value give NaN. -/
def toNumber : JsVal → Option Int
  | .jnum n => some n
  | .jnan => none
  | .jstr s => if (jsTrim s).isEmpty then some 0 else parseIntChars (jsTrim s).data
  | .jmissing => none

/-- A stored inventory item: the mutable quantity and the updated-by audit
field touched by `applyDelta` (the update map names only these fields, so
everything else on the document is untouched), plus the item name as a
representative untouched field. -/
structure InvItem where
  name : String
  quantity : JsVal
  updatedBy : Option String
deriving DecidableEq

/-- An immutable inventory adjustment event. -/
structure InvEvent where
  itemId : String
  delta : Int
  reason : String
  createdBy : Option String
deriving DecidableEq

/-- The inventory slice of the store: items keyed by document ID and the
append-only event log. -/
structure InvDB where
  items : List (String × InvItem)
  events : List InvEvent
deriving DecidableEq

/-- The function `applyDelta` (part_009): `amt = Number(delta[itemId] || 0)`;
`if (!amt || !Number.isFinite(amt)) return;`; then a transaction reading the
item and writing `Number(quantity || 0) + amt` (early return, no write, when
the item is absent); then an event append. -/
def applyDelta (st : InvDB) (itemId : String) (dval : JsVal) (reason : String)
    (user : Option String) : InvDB :=
  match toNumber (jsOrZero dval) with
  | none => st
  | some n =>
    if n = 0 then st
    else
      let afterTx : InvDB :=
        match kvGet st.items itemId with
        | none => st
        | some it =>
          let next : JsVal :=
            (match toNumber (jsOrZero it.quantity) with
             | some c => .jnum (c + n)
             | none => .jnan)
          { st with items := kvSet st.items itemId ({ it with quantity := next, updatedBy := user }) }
      { afterTx with events := afterTx.events ++ [⟨itemId, n, reason, user⟩] }

/-! ## Booking conflict checker (web source, part_009) -/

/-- A booking as read by the conflict check.  The source field `end` is
`endT` here (`end` is reserved in Lean); timestamps are the opaque
`datetime-local` strings compared lexicographically. -/
structure Booking where
  id : String
  resourceId : String
  start : String
  endT : String
deriving DecidableEq

/-- The function `overlaps`: false when any bound is empty, otherwise the
half-open-interval test `aStart < bEnd && aEnd > bStart` on strings. -/
def overlaps (aStart aEnd bStart bEnd : String) : Bool :=
  if aStart = "" ∨ aEnd = "" ∨ bStart = "" ∨ bEnd = "" then false
  else strLt aStart bEnd && strLt bStart aEnd

/-- The conflict check inside `save`: filter the visible bookings to those
on the candidate's resource other than the booking being edited (`b.id !==
editing?.id`; with no booking being edited every one is kept), and test
`overlaps` against each. -/
def hasConflict (bookings : List Booking) (editingId : Option String)
    (resourceId : String) (startS endS : String) : Bool :=
  (bookings.filter (fun b =>
      decide (b.resourceId = resourceId) && decide (some b.id ≠ editingId))).any
    (fun b => overlaps startS endS b.start b.endT)

/-! ## Concrete inputs used by witnesses and counterexamples -/

/-- A minimal valid creation payload with no tax ID. -/
def pAcme : Payload := { emptyPayload with legalName := some "Acme Corp" }

/-- The keyless creation payload for client A (a create with a non-empty
tax key always aborts, so keyed states are built by create-then-edit). -/
def pClientA0 : Payload := { emptyPayload with legalName := some "Client A" }

/-- The edit payload assigning client A the tax ID `1234567890123`. -/
def pClientA : Payload :=
  { emptyPayload with legalName := some "Client A", taxId := some "1234567890123" }

/-- Client B of the uniqueness scenario: a whitespace variant of the same
tax ID. -/
def pClientB : Payload :=
  { emptyPayload with legalName := some "Client B", taxId := some " 1234567890123 " }

/-- The keyless creation payload for client B. -/
def pClientB0 : Payload := { emptyPayload with legalName := some "Client B" }

/-- An edit payload moving client A's tax ID to `tax/b` (normalized
`TAX_B`). -/
def pEditB : Payload :=
  { emptyPayload with legalName := some "Client A", taxId := some "tax/b" }

/-- A creation payload with client A's tax ID, for the delete-then-recreate
scenario. -/
def pClientC : Payload :=
  { emptyPayload with legalName := some "Client C", taxId := some "1234567890123" }

/-- The store holding client A with tax ID `1234567890123`: a keyless
creation followed by the edit that assigns the tax ID. -/
def sA : DB := execList initDB [Op.create pClientA0 none, Op.edit 0 pClientA none]

/-- The store holding client A (tax ID `1234567890123`) and the keyless
client B. -/
def sAB : DB :=
  execList initDB [Op.create pClientA0 none, Op.edit 0 pClientA none,
    Op.create pClientB0 none]

/-- A creation payload carrying a trading name. -/
def pTrade : Payload :=
  { emptyPayload with legalName := some "Acme Corp", tradingName := some "TradeCo" }

/-- The store after creating the trading-name client. -/
def sTrade : DB := execList initDB [Op.create pTrade none]

/-- An edit payload that omits the trading name. -/
def pNoTrade : Payload := { emptyPayload with legalName := some "Acme Corp" }

/-- A VAT-registered payload with a whitespace tax ID and no legal name. -/
def pVatNoName : Payload :=
  { emptyPayload with vatRegistered := some true, taxId := some "  " }

/-- A VAT-registered payload with a whitespace tax ID and a legal name. -/
def pVatNamed : Payload :=
  { emptyPayload with
      legalName := some "VatCo"
      vatRegistered := some true
      taxId := some " " }

/-- An inventory store whose item `i1` has the non-numeric stored quantity
`"abc"`. -/
def invStStr : InvDB := ⟨[("i1", ⟨"Camera", .jstr "abc", none⟩)], []⟩

/-- An inventory store whose item `i2` has quantity 3. -/
def invStNum : InvDB := ⟨[("i2", ⟨"Light", .jnum 3, none⟩)], []⟩

/-- An inventory store with no items. -/
def invStEmpty : InvDB := ⟨[], []⟩

/-- Booking `[10:00, 11:00)` on resource `r1`. -/
def bkTen : Booking := ⟨"b1", "r1", "10:00", "11:00"⟩

/-! ## Association-list lemmas -/

theorem kvGet_set_self {α β : Type} [DecidableEq α] (m : List (α × β)) (k : α) (v : β) :
    kvGet (kvSet m k v) k = some v := by
  induction m with
  | nil => simp [kvGet, kvSet]
  | cons hd tl ih =>
    obtain ⟨a, b⟩ := hd
    by_cases h : a = k
    · simp [kvSet, h, kvGet]
    · simp [kvSet, h, kvGet, ih]

theorem kvGet_set_ne {α β : Type} [DecidableEq α] (m : List (α × β)) (k k' : α) (v : β)
    (h : k' ≠ k) : kvGet (kvSet m k v) k' = kvGet m k' := by
  induction m with
  | nil => simp [kvGet, kvSet, Ne.symm h]
  | cons hd tl ih =>
    obtain ⟨a, b⟩ := hd
    by_cases ha : a = k
    · subst ha
      simp [kvSet, kvGet, Ne.symm h]
    · simp only [kvSet, if_neg ha, kvGet]
      by_cases hak : a = k'
      · simp [hak]
      · simp [hak, ih]

theorem kvGet_del_self {α β : Type} [DecidableEq α] (m : List (α × β)) (k : α) :
    kvGet (kvDel m k) k = none := by
  induction m with
  | nil => simp [kvGet, kvDel]
  | cons hd tl ih =>
    obtain ⟨a, b⟩ := hd
    by_cases h : a = k
    · simpa [kvDel, h] using ih
    · simpa [kvDel, kvGet, h] using ih

theorem kvGet_del_ne {α β : Type} [DecidableEq α] (m : List (α × β)) (k k' : α)
    (h : k' ≠ k) : kvGet (kvDel m k) k' = kvGet m k' := by
  induction m with
  | nil => simp [kvDel]
  | cons hd tl ih =>
    obtain ⟨a, b⟩ := hd
    by_cases ha : a = k
    · subst ha
      simp [kvDel, kvGet, Ne.symm h, ih]
    · by_cases hak : a = k'
      · simp [kvDel, kvGet, ha, hak, h]
      · simp [kvDel, kvGet, ha, hak, ih]

/-! ## Outcome shapes of the three client operations -/

theorem create_shape (s : DB) (p : Payload) (u : Option String) :
    (∃ e, upsertClient true s none p u = (s, Except.error e)) ∨
    (upsertClient true s none p u =
        ({ clients := kvSet s.clients s.nextId
             ⟨cleanClient p, "CL-" ++ toString (curOf s + 1), u, u⟩,
           uniqueTaxIds := s.uniqueTaxIds,
           counter := some (curOf s + 1),
           nextId := s.nextId + 1 }, Except.ok s.nextId) ∧
      validateClient (cleanClient p) = [] ∧
      keyify (cleanClient p).taxId = "") := by
  by_cases hv : validateClient (cleanClient p) = []
  · by_cases hk : keyify (cleanClient p).taxId = ""
    · right
      exact ⟨by simp [upsertClient, hv, upsertTx, hk], hv, hk⟩
    · left
      exact ⟨.internalErr readAfterWriteMsg,
        by simp [upsertClient, hv, upsertTx, hk]⟩
  · left
    exact ⟨.invalidArgument (validateClient (cleanClient p)),
      by simp [upsertClient, hv]⟩

theorem edit_shape (s : DB) (eid : Nat) (p : Payload) (u : Option String) :
    (∃ e, upsertClient true s (some eid) p u = (s, Except.error e)) ∨
    (∃ prev idx', kvGet s.clients eid = some prev ∧
      validateClient (cleanClient p) = [] ∧
      upsertClient true s (some eid) p u =
        ({ s with
            uniqueTaxIds := idx',
            clients := kvSet s.clients eid
              { prev with data := cleanClient p, updatedBy := u } }, Except.ok eid) ∧
      IndexEditSpec s.uniqueTaxIds (keyify (cleanClient p).taxId)
        (keyify prev.data.taxId) eid idx') := by
  by_cases hv : validateClient (cleanClient p) = []
  · cases hprev : kvGet s.clients eid with
    | none =>
      left
      exact ⟨.notFound, by simp [upsertClient, hv, upsertTx, hprev]⟩
    | some prev =>
      by_cases hkey : keyify (cleanClient p).taxId = keyify prev.data.taxId
      · right
        exact ⟨prev, s.uniqueTaxIds, rfl, hv,
          by simp [upsertClient, hv, upsertTx, hprev, indexCheckEdit, hkey],
          Or.inl ⟨hkey, rfl⟩⟩
      · by_cases hk : keyify (cleanClient p).taxId = ""
        · have hpk : keyify prev.data.taxId ≠ "" := fun hc => hkey (hk.trans hc.symm)
          right
          exact ⟨prev, kvDel s.uniqueTaxIds (keyify prev.data.taxId), rfl, hv,
            by simp [upsertClient, hv, upsertTx, hprev, indexCheckEdit, hkey, hk, hpk,
              Ne.symm hpk],
            Or.inr (Or.inl ⟨hkey, hk, hpk, rfl⟩)⟩
        · cases hidx : kvGet s.uniqueTaxIds (keyify (cleanClient p).taxId) with
          | some owner =>
            by_cases how : owner = eid
            · right
              refine ⟨prev, _, rfl, hv,
                by simp [upsertClient, hv, upsertTx, hprev, indexCheckEdit, hkey, hk, hidx, how],
                Or.inr (Or.inr ⟨hkey, hk, Or.inr (how ▸ hidx), rfl⟩)⟩
            · left
              exact ⟨.alreadyExists,
                by simp [upsertClient, hv, upsertTx, hprev, indexCheckEdit, hkey, hk, hidx, how]⟩
          | none =>
            right
            refine ⟨prev, _, rfl, hv,
              by simp [upsertClient, hv, upsertTx, hprev, indexCheckEdit, hkey, hk, hidx],
              Or.inr (Or.inr ⟨hkey, hk, Or.inl hidx, rfl⟩)⟩
  · left
    exact ⟨.invalidArgument (validateClient (cleanClient p)),
      by simp [upsertClient, hv]⟩

theorem delete_shape (s : DB) (id : Nat) :
    (∃ e, deleteClient true s (some id) = (s, Except.error e)) ∨
    (∃ doc, kvGet s.clients id = some doc ∧
      deleteClient true s (some id) =
        ({ s with
            clients := kvDel s.clients id,
            uniqueTaxIds :=
              if keyify doc.data.taxId = "" then s.uniqueTaxIds
              else kvDel s.uniqueTaxIds (keyify doc.data.taxId) }, Except.ok ())) := by
  cases hdoc : kvGet s.clients id with
  | none => exact Or.inl ⟨.notFound, by simp [deleteClient, hdoc]⟩
  | some doc => exact Or.inr ⟨doc, rfl, by simp [deleteClient, hdoc]⟩

theorem kvGet_del_eq_some {α β : Type} [DecidableEq α] {m : List (α × β)} {k0 k : α}
    {v : β} (h : kvGet (kvDel m k0) k = some v) : k ≠ k0 ∧ kvGet m k = some v := by
  by_cases hk : k = k0
  · subst hk
    rw [kvGet_del_self] at h
    cases h
  · exact ⟨hk, by rwa [kvGet_del_ne _ _ _ hk] at h⟩

theorem kvGet_set_eq_some {α β : Type} [DecidableEq α] {m : List (α × β)} {k0 k : α}
    {v0 v : β} (h : kvGet (kvSet m k0 v0) k = some v) :
    (k = k0 ∧ v = v0) ∨ (k ≠ k0 ∧ kvGet m k = some v) := by
  by_cases hk : k = k0
  · subst hk
    rw [kvGet_set_self] at h
    exact Or.inl ⟨rfl, (Option.some.inj h).symm⟩
  · exact Or.inr ⟨hk, by rwa [kvGet_set_ne _ _ _ _ hk] at h⟩

/-! ## Invariant preservation -/

theorem invA_unique {s : DB} (hA : InvA s) {id1 id2 : Nat} {r1 r2 : StoredClient}
    (h1 : kvGet s.clients id1 = some r1) (h2 : kvGet s.clients id2 = some r2)
    (hk : keyify r1.data.taxId = keyify r2.data.taxId)
    (hne : keyify r1.data.taxId ≠ "") : id1 = id2 := by
  have e1 := hA id1 r1 h1 hne
  have e2 := hA id2 r2 h2 (hk ▸ hne)
  rw [hk] at e1
  exact Option.some.inj (e1.symm.trans e2)

theorem kvGet_fresh {s : DB} (hC : InvC s) : kvGet s.clients s.nextId = none := by
  cases h : kvGet s.clients s.nextId with
  | none => rfl
  | some r => exact absurd (hC _ _ h) (lt_irrefl _)

theorem inv_init : Inv initDB := by
  refine ⟨?_, ?_, ?_⟩
  · intro id r hg
    simp [initDB, kvGet] at hg
  · intro k cid hg
    simp [initDB, kvGet] at hg
  · intro id r hg
    simp [initDB, kvGet] at hg

theorem inv_create (s : DB) (p : Payload) (u : Option String) (h : Inv s) :
    Inv (upsertClient true s none p u).1 := by
  obtain ⟨hA, hB, hC⟩ := h
  rcases create_shape s p u with ⟨e, heq⟩ | ⟨heq, hv, hk⟩
  · rw [heq]
    exact ⟨hA, hB, hC⟩
  · rw [heq]
    refine ⟨?_, ?_, ?_⟩
    · intro id r hg hne
      rcases kvGet_set_eq_some hg with ⟨hid, hr⟩ | ⟨hid, hr⟩
      · subst hid
        subst hr
        exact absurd hk hne
      · exact hA id r hr hne
    · intro k cid hg
      obtain ⟨hkne, r, hgr, hkr⟩ := hB k cid hg
      have hcid : cid ≠ s.nextId := by
        intro hc
        rw [hc, kvGet_fresh hC] at hgr
        cases hgr
      exact ⟨hkne, r, by rw [kvGet_set_ne _ _ _ _ hcid]; exact hgr, hkr⟩
    · intro id r hg
      rcases kvGet_set_eq_some hg with ⟨hid, _⟩ | ⟨hid, hr⟩
      · subst hid
        exact Nat.lt_succ_self _
      · exact Nat.lt_succ_of_lt (hC id r hr)

theorem inv_edit (s : DB) (eid : Nat) (p : Payload) (u : Option String) (h : Inv s) :
    Inv (upsertClient true s (some eid) p u).1 := by
  obtain ⟨hA, hB, hC⟩ := h
  rcases edit_shape s eid p u with ⟨e, heq⟩ | ⟨prev, idx', hprev, hv, heq, hspec⟩
  · rw [heq]
    exact ⟨hA, hB, hC⟩
  · rw [heq]
    have hAprev : keyify prev.data.taxId ≠ "" →
        kvGet s.uniqueTaxIds (keyify prev.data.taxId) = some eid :=
      fun hne => hA eid prev hprev hne
    refine ⟨?_, ?_, ?_⟩
    · intro id r hg hne
      rcases kvGet_set_eq_some hg with ⟨hid, hr⟩ | ⟨hid, hr⟩
      · subst hid
        subst hr
        simp only [] at hne ⊢
        rcases hspec with ⟨hkpk, hidx'⟩ | ⟨hkpk, hK, hPK, hidx'⟩ | ⟨hkpk, hK, howner, hidx'⟩
        · rw [hidx', hkpk]
          exact hAprev (hkpk ▸ hne)
        · exact absurd hK hne
        · rw [hidx']
          by_cases hPK : keyify prev.data.taxId = ""
          · rw [if_pos hPK]
            exact kvGet_set_self _ _ _
          · rw [if_neg hPK, kvGet_del_ne _ _ _ hkpk]
            exact kvGet_set_self _ _ _
      · have hold := hA id r hr hne
        rcases hspec with ⟨hkpk, hidx'⟩ | ⟨hkpk, hK, hPK, hidx'⟩ | ⟨hkpk, hK, howner, hidx'⟩
        · rw [hidx']
          exact hold
        · rw [hidx']
          have hkPK : keyify r.data.taxId ≠ keyify prev.data.taxId := by
            intro hc
            exact hid (invA_unique hA hr hprev hc hne)
          rw [kvGet_del_ne _ _ _ hkPK]
          exact hold
        · have hkK : keyify r.data.taxId ≠ keyify (cleanClient p).taxId := by
            intro hc
            rw [hc] at hold
            rcases howner with hnone | hown
            · rw [hold] at hnone
              cases hnone
            · rw [hold] at hown
              exact hid (Option.some.inj hown)
          have hkPK : keyify prev.data.taxId ≠ "" → keyify r.data.taxId ≠ keyify prev.data.taxId := by
            intro hPKne hc
            exact hid (invA_unique hA hr hprev hc hne)
          rw [hidx']
          by_cases hPK : keyify prev.data.taxId = ""
          · rw [if_pos hPK, kvGet_set_ne _ _ _ _ hkK]
            exact hold
          · rw [if_neg hPK, kvGet_del_ne _ _ _ (hkPK hPK), kvGet_set_ne _ _ _ _ hkK]
            exact hold
    · intro k cid hg
      rcases hspec with ⟨hkpk, hidx'⟩ | ⟨hkpk, hK, hPK, hidx'⟩ | ⟨hkpk, hK, howner, hidx'⟩
      · rw [hidx'] at hg
        obtain ⟨hkne, r, hgr, hkr⟩ := hB k cid hg
        by_cases hcid : cid = eid
        · have hrp : r = prev :=
            Option.some.inj ((hcid ▸ hgr : kvGet s.clients eid = some r).symm.trans hprev)
          refine ⟨hkne, { prev with data := cleanClient p, updatedBy := u }, ?_, ?_⟩
          · rw [hcid]
            exact kvGet_set_self _ _ _
          · exact hkpk.trans (hrp ▸ hkr)
        · exact ⟨hkne, r, by rw [kvGet_set_ne _ _ _ _ hcid]; exact hgr, hkr⟩
      · rw [hidx'] at hg
        obtain ⟨hkPK, hold⟩ := kvGet_del_eq_some hg
        obtain ⟨hkne, r, hgr, hkr⟩ := hB k cid hold
        by_cases hcid : cid = eid
        · have hrp : r = prev :=
            Option.some.inj ((hcid ▸ hgr : kvGet s.clients eid = some r).symm.trans hprev)
          exact absurd (hrp ▸ hkr).symm hkPK
        · exact ⟨hkne, r, by rw [kvGet_set_ne _ _ _ _ hcid]; exact hgr, hkr⟩
      · rw [hidx'] at hg
        have hg' : kvGet (kvSet s.uniqueTaxIds (keyify (cleanClient p).taxId) eid) k = some cid ∧
            (keyify prev.data.taxId ≠ "" → k ≠ keyify prev.data.taxId) := by
          by_cases hPK : keyify prev.data.taxId = ""
          · rw [if_pos hPK] at hg
            exact ⟨hg, fun hc => absurd hPK hc⟩
          · rw [if_neg hPK] at hg
            obtain ⟨hne', hold⟩ := kvGet_del_eq_some hg
            exact ⟨hold, fun _ => hne'⟩
        obtain ⟨hgset, hknePK⟩ := hg'
        rcases kvGet_set_eq_some hgset with ⟨hkk, hcid⟩ | ⟨hkk, hold⟩
        · refine ⟨by rw [hkk]; exact hK,
            { prev with data := cleanClient p, updatedBy := u }, ?_, hkk.symm⟩
          rw [hcid]
          exact kvGet_set_self _ _ _
        · obtain ⟨hkne, r, hgr, hkr⟩ := hB k cid hold
          by_cases hcid : cid = eid
          · have hrp : r = prev :=
              Option.some.inj ((hcid ▸ hgr : kvGet s.clients eid = some r).symm.trans hprev)
            by_cases hPK : keyify prev.data.taxId = ""
            · exact absurd ((hrp ▸ hkr).symm.trans hPK) hkne
            · exact absurd (hrp ▸ hkr).symm (hknePK hPK)
          · exact ⟨hkne, r, by rw [kvGet_set_ne _ _ _ _ hcid]; exact hgr, hkr⟩
    · intro id r hg
      rcases kvGet_set_eq_some hg with ⟨hid, _⟩ | ⟨hid, hr⟩
      · rw [hid]
        exact hC eid prev hprev
      · exact hC id r hr

theorem inv_del (s : DB) (id0 : Nat) (h : Inv s) :
    Inv (deleteClient true s (some id0)).1 := by
  obtain ⟨hA, hB, hC⟩ := h
  rcases delete_shape s id0 with ⟨e, heq⟩ | ⟨doc, hdoc, heq⟩
  · rw [heq]
    exact ⟨hA, hB, hC⟩
  · rw [heq]
    refine ⟨?_, ?_, ?_⟩
    · intro id r hg hne
      obtain ⟨hid, hr⟩ := kvGet_del_eq_some hg
      have hold := hA id r hr hne
      by_cases hKD : keyify doc.data.taxId = ""
      · rw [if_pos hKD]
        exact hold
      · rw [if_neg hKD]
        have hkk : keyify r.data.taxId ≠ keyify doc.data.taxId := by
          intro hc
          exact hid (invA_unique hA hr hdoc hc hne)
        rw [kvGet_del_ne _ _ _ hkk]
        exact hold
    · intro k cid hg
      by_cases hKD : keyify doc.data.taxId = ""
      · rw [if_pos hKD] at hg
        obtain ⟨hkne, r, hgr, hkr⟩ := hB k cid hg
        by_cases hcid : cid = id0
        · subst hcid
          have hrp : r = doc := Option.some.inj (hgr.symm.trans hdoc)
          subst hrp
          exact absurd (hkr.symm.trans hKD) hkne
        · exact ⟨hkne, r, by rw [kvGet_del_ne _ _ _ hcid]; exact hgr, hkr⟩
      · rw [if_neg hKD] at hg
        obtain ⟨hkKD, hold⟩ := kvGet_del_eq_some hg
        obtain ⟨hkne, r, hgr, hkr⟩ := hB k cid hold
        by_cases hcid : cid = id0
        · subst hcid
          have hrp : r = doc := Option.some.inj (hgr.symm.trans hdoc)
          subst hrp
          exact absurd hkr.symm hkKD
        · exact ⟨hkne, r, by rw [kvGet_del_ne _ _ _ hcid]; exact hgr, hkr⟩
    · intro id r hg
      obtain ⟨hid, hr⟩ := kvGet_del_eq_some hg
      exact hC id r hr

theorem inv_execOp (s : DB) (op : Op) (h : Inv s) : Inv (execOp s op) := by
  cases op with
  | create p u => exact inv_create s p u h
  | edit id p u => exact inv_edit s id p u h
  | del id => exact inv_del s id h

theorem inv_execList (ops : List Op) : ∀ s : DB, Inv s → Inv (execList s ops) := by
  induction ops with
  | nil => exact fun s h => h
  | cons op ops ih => exact fun s h => ih (execOp s op) (inv_execOp s op h)

theorem inv_reachable (ops : List Op) : Inv (execList initDB ops) :=
  inv_execList ops initDB inv_init

/-! ## Counter monotonicity and allocation lemmas -/

theorem create_ok_counter (s : DB) (p : Payload) (u : Option String)
    (h : (upsertClient true s none p u).2.isOk = true) :
    curOf (upsertClient true s none p u).1 = curOf s + 1 := by
  rcases create_shape s p u with ⟨e, heq⟩ | ⟨heq, hv, hk⟩
  · rw [heq] at h
    cases h
  · rw [heq]
    rfl

theorem edit_counter (s : DB) (eid : Nat) (p : Payload) (u : Option String) :
    curOf (upsertClient true s (some eid) p u).1 = curOf s := by
  rcases edit_shape s eid p u with ⟨e, heq⟩ | ⟨prev, idx', hprev, hv, heq, hspec⟩
  · rw [heq]
  · rw [heq]
    rfl

theorem del_counter (s : DB) (id : Nat) :
    curOf (deleteClient true s (some id)).1 = curOf s := by
  rcases delete_shape s id with ⟨e, heq⟩ | ⟨doc, hdoc, heq⟩
  · rw [heq]
  · rw [heq]
    rfl

theorem curOf_execOp_mono (s : DB) (op : Op) : curOf s ≤ curOf (execOp s op) := by
  cases op with
  | create p u =>
    show curOf s ≤ curOf (upsertClient true s none p u).1
    cases hok : (upsertClient true s none p u).2.isOk with
    | true =>
      rw [create_ok_counter s p u hok]
      omega
    | false =>
      rcases create_shape s p u with ⟨e, heq⟩ | ⟨heq, hv, hk⟩
      · rw [heq]
      · rw [heq] at hok
        cases hok
  | edit id p u => exact le_of_eq (edit_counter s id p u).symm
  | del id => exact le_of_eq (del_counter s id).symm

theorem curOf_execList_mono (ops : List Op) : ∀ s : DB, curOf s ≤ curOf (execList s ops) := by
  induction ops with
  | nil => exact fun s => le_refl _
  | cons op ops ih =>
    exact fun s => le_trans (curOf_execOp_mono s op) (ih (execOp s op))

theorem allocsFrom_create_ok (s : DB) (p : Payload) (u : Option String)
    (ops : List Op) (v : Nat) (hok : (upsertClient true s none p u).2 = Except.ok v) :
    allocsFrom s (.create p u :: ops) =
      (curOf s + 1) :: allocsFrom (execOp s (.create p u)) ops := by
  simp [allocsFrom, hok]

theorem allocsFrom_create_err (s : DB) (p : Payload) (u : Option String)
    (ops : List Op) (e : Err) (herr : (upsertClient true s none p u).2 = Except.error e) :
    allocsFrom s (.create p u :: ops) = allocsFrom (execOp s (.create p u)) ops := by
  simp [allocsFrom, herr]

theorem allocsFrom_edit (s : DB) (id : Nat) (p : Payload) (u : Option String)
    (ops : List Op) :
    allocsFrom s (.edit id p u :: ops) = allocsFrom (execOp s (.edit id p u)) ops := by
  simp [allocsFrom]

theorem allocsFrom_del (s : DB) (id : Nat) (ops : List Op) :
    allocsFrom s (.del id :: ops) = allocsFrom (execOp s (.del id)) ops := by
  simp [allocsFrom]

theorem allocs_gt (ops : List Op) :
    ∀ s : DB, ∀ a ∈ allocsFrom s ops, curOf s < a := by
  induction ops with
  | nil =>
    intro s a ha
    cases ha
  | cons op ops ih =>
    intro s a ha
    cases op with
    | create p u =>
      cases hok : (upsertClient true s none p u).2 with
      | ok v =>
        rw [allocsFrom_create_ok s p u ops v hok] at ha
        rcases List.mem_cons.mp ha with rfl | htail
        · omega
        · have h1 := ih (execOp s (.create p u)) a htail
          have h2 : curOf (execOp s (.create p u)) = curOf s + 1 :=
            create_ok_counter s p u (by rw [show (upsertClient true s none p u).2.isOk = (Except.ok v : Except Err Nat).isOk from congrArg Except.isOk hok]; rfl)
          omega
      | error e =>
        rw [allocsFrom_create_err s p u ops e hok] at ha
        have h1 := ih (execOp s (.create p u)) a ha
        have h2 := curOf_execOp_mono s (.create p u)
        omega
    | edit id p u =>
      rw [allocsFrom_edit] at ha
      have h1 := ih (execOp s (.edit id p u)) a ha
      have h2 := curOf_execOp_mono s (.edit id p u)
      omega
    | del id =>
      rw [allocsFrom_del] at ha
      have h1 := ih (execOp s (.del id)) a ha
      have h2 := curOf_execOp_mono s (.del id)
      omega

theorem allocs_pairwise (ops : List Op) :
    ∀ s : DB, List.Pairwise (· < ·) (allocsFrom s ops) := by
  induction ops with
  | nil =>
    intro s
    exact List.Pairwise.nil
  | cons op ops ih =>
    intro s
    cases op with
    | create p u =>
      cases hok : (upsertClient true s none p u).2 with
      | ok v =>
        rw [allocsFrom_create_ok s p u ops v hok]
        refine List.Pairwise.cons ?_ (ih (execOp s (.create p u)))
        intro a ha
        have h1 := allocs_gt ops (execOp s (.create p u)) a ha
        have h2 : curOf (execOp s (.create p u)) = curOf s + 1 :=
          create_ok_counter s p u (by rw [show (upsertClient true s none p u).2.isOk = (Except.ok v : Except Err Nat).isOk from congrArg Except.isOk hok]; rfl)
        omega
      | error e =>
        rw [allocsFrom_create_err s p u ops e hok]
        exact ih (execOp s (.create p u))
    | edit id p u =>
      rw [allocsFrom_edit]
      exact ih (execOp s (.edit id p u))
    | del id =>
      rw [allocsFrom_del]
      exact ih (execOp s (.del id))

/-! ## Conflict outcome lemmas -/

theorem create_keyed_fails (s : DB) (p : Payload) (u : Option String)
    (hv : validateClient (cleanClient p) = [])
    (hk : keyify (cleanClient p).taxId ≠ "") :
    upsertClient true s none p u =
      (s, Except.error (Err.internalErr readAfterWriteMsg)) := by
  simp [upsertClient, hv, upsertTx, hk]

theorem edit_conflict (s : DB) (eid : Nat) (p : Payload) (u : Option String)
    (prev : StoredClient) (cid : Nat)
    (hv : validateClient (cleanClient p) = [])
    (hprev : kvGet s.clients eid = some prev)
    (hk : keyify (cleanClient p).taxId ≠ "")
    (hkpk : keyify (cleanClient p).taxId ≠ keyify prev.data.taxId)
    (hidx : kvGet s.uniqueTaxIds (keyify (cleanClient p).taxId) = some cid)
    (hcid : cid ≠ eid) :
    upsertClient true s (some eid) p u = (s, Except.error Err.alreadyExists) := by
  simp [upsertClient, hv, upsertTx, hprev, indexCheckEdit, hkpk, hk, hidx, hcid]

/-! ## Claim theorems -/

/-- C1 counterexample: on the reachable store holding client A with the
normalized tax key `1234567890123`, the validated creation of client B with
a whitespace variant of the same tax ID fails — but with the internal
read-after-write error (the uniqueness-index read follows the staged
counter write), not with the already-exists conflict error the claim
names. -/
theorem C1_counterexample :
    kvGet sA.clients 0 = some ⟨cleanClient pClientA, "CL-100001", none, none⟩ ∧
    keyify (cleanClient pClientB).taxId = keyify (cleanClient pClientA).taxId ∧
    keyify (cleanClient pClientB).taxId ≠ "" ∧
    validateClient (cleanClient pClientB) = [] ∧
    upsertClient true sA none pClientB none =
      (sA, Except.error (Err.internalErr readAfterWriteMsg)) ∧
    Err.internalErr readAfterWriteMsg ≠ Err.alreadyExists := by
  exact ⟨by decide, by decide, by decide, by decide, by decide, by decide⟩

/-- C1 (amended): in every reachable state of the client subsystem, a
non-empty normalized tax key is carried by at most one client record, and
any call that would give a second client an already-carried key fails and
returns the store completely unchanged (record, uniqueness-index entry, and
counter included) — an edit of an existing record other than the key's
owner failing with the already-exists conflict error, while a creation with
any non-empty normalized tax key fails with the internal read-after-write
error before its exists check is reached. -/
theorem C1_tax_key_uniqueness (ops : List Op) (p : Payload) (u : Option String) :
    (∀ id1 id2 r1 r2,
        kvGet (execList initDB ops).clients id1 = some r1 →
        kvGet (execList initDB ops).clients id2 = some r2 →
        keyify r1.data.taxId = keyify r2.data.taxId →
        keyify r1.data.taxId ≠ "" → id1 = id2) ∧
    (∀ cid r, kvGet (execList initDB ops).clients cid = some r →
        validateClient (cleanClient p) = [] →
        keyify (cleanClient p).taxId = keyify r.data.taxId →
        keyify (cleanClient p).taxId ≠ "" →
        upsertClient true (execList initDB ops) none p u =
          (execList initDB ops, Except.error (Err.internalErr readAfterWriteMsg))) ∧
    (∀ eid cid r re, eid ≠ cid →
        kvGet (execList initDB ops).clients cid = some r →
        kvGet (execList initDB ops).clients eid = some re →
        validateClient (cleanClient p) = [] →
        keyify (cleanClient p).taxId = keyify r.data.taxId →
        keyify (cleanClient p).taxId ≠ "" →
        upsertClient true (execList initDB ops) (some eid) p u =
          (execList initDB ops, Except.error Err.alreadyExists)) := by
  obtain ⟨hA, hB, hC⟩ := inv_reachable ops
  refine ⟨fun id1 id2 r1 r2 h1 h2 hk hne => invA_unique hA h1 h2 hk hne, ?_, ?_⟩
  · intro cid r hg hv hkeq hkne
    exact create_keyed_fails _ p u hv hkne
  · intro eid cid r re hne hgr hgre hv hkeq hkne
    have hidx : kvGet (execList initDB ops).uniqueTaxIds
        (keyify (cleanClient p).taxId) = some cid := by
      rw [hkeq]
      exact hA cid r hgr (hkeq ▸ hkne)
    have hkpk : keyify (cleanClient p).taxId ≠ keyify re.data.taxId := by
      intro hc
      exact hne (invA_unique hA hgre hgr (hc.symm.trans hkeq) (hc ▸ hkne))
    exact edit_conflict _ eid p u re cid hv hgre hkne hkpk hidx
      (fun hc => hne (hc ▸ rfl))

/-- C1 witness: on the store holding keyed client A and keyless client B,
editing client B to a whitespace variant of client A's tax ID fails with
the already-exists error and leaves the store unchanged. -/
theorem C1_tax_key_uniqueness_witness :
    upsertClient true
        (execList initDB [Op.create pClientA0 none, Op.edit 0 pClientA none,
          Op.create pClientB0 none]) (some 1) pClientB none =
      (execList initDB [Op.create pClientA0 none, Op.edit 0 pClientA none,
        Op.create pClientB0 none], Except.error Err.alreadyExists) :=
  (C1_tax_key_uniqueness
      [Op.create pClientA0 none, Op.edit 0 pClientA none, Op.create pClientB0 none]
      pClientB none).2.2 1 0
    ⟨cleanClient pClientA, "CL-100001", none, none⟩
    ⟨cleanClient pClientB0, "CL-100002", none, none⟩
    (by decide) (by decide) (by decide) (by decide) (by decide) (by decide)

/-- C2: the client-create path is atomic.  Whenever the call returns an
error — validation failure, uniqueness conflict, or any other abort — the
store is returned completely unchanged; whenever it succeeds, the counter
has advanced by exactly one and the record at the returned ID exists with
the matching human-facing `clientId`, with the index entry written whenever
the normalized tax key is non-empty.  No ID is consumed without its record
and no partial state is visible. -/
theorem C2_create_atomic (s : DB) (p : Payload) (u : Option String) :
    (∀ e, (upsertClient true s none p u).2 = Except.error e →
        (upsertClient true s none p u).1 = s) ∧
    (∀ rid, (upsertClient true s none p u).2 = Except.ok rid →
        (upsertClient true s none p u).1.counter = some (curOf s + 1) ∧
        ∃ rec, kvGet (upsertClient true s none p u).1.clients rid = some rec ∧
          rec.clientId = "CL-" ++ toString (curOf s + 1) ∧
          (keyify (cleanClient p).taxId ≠ "" →
            kvGet (upsertClient true s none p u).1.uniqueTaxIds
              (keyify (cleanClient p).taxId) = some rid)) := by
  rcases create_shape s p u with ⟨e, heq⟩ | ⟨heq, hv, hk0⟩
  · constructor
    · intro e' he
      rw [heq]
    · intro rid hok
      rw [heq] at hok
      simp at hok
  · constructor
    · intro e' he
      rw [heq] at he
      simp at he
    · intro rid hok
      rw [heq] at hok
      have hrid : rid = s.nextId := (Except.ok.inj hok).symm
      subst hrid
      rw [heq]
      refine ⟨rfl, ⟨cleanClient p, "CL-" ++ toString (curOf s + 1), u, u⟩,
        kvGet_set_self _ _ _, rfl, ?_⟩
      intro hk
      exact absurd hk0 hk

/-- C2 witness: a failing creation (validation rejects the empty payload)
returns the fresh store unchanged. -/
theorem C2_create_atomic_witness :
    (upsertClient true initDB none emptyPayload none).1 = initDB :=
  (C2_create_atomic initDB emptyPayload none).1
    (Err.invalidArgument [("legalName", "Required.")]) (by decide)

/-- C3: the sequential allocator reads the stored counter (100000 when the
counter document is absent), writes back `current + 1` and stamps the new
record with `clientId = "CL-" + (current + 1)`; on a fresh system the first
two creations yield `CL-100001` and `CL-100002`; and over every operation
trace the allocated values are strictly increasing, hence duplicate-free. -/
theorem C3_sequential_allocator (s : DB) (p : Payload) (u : Option String)
    (ops : List Op) :
    (∀ rid, (upsertClient true s none p u).2 = Except.ok rid →
        (upsertClient true s none p u).1.counter = some (curOf s + 1) ∧
        ∃ rec, kvGet (upsertClient true s none p u).1.clients rid = some rec ∧
          rec.clientId = "CL-" ++ toString (curOf s + 1)) ∧
    (s.counter = none → curOf s = 100000) ∧
    (kvGet (execList initDB [Op.create pAcme none, Op.create pAcme none]).clients 0 =
        some ⟨cleanClient pAcme, "CL-100001", none, none⟩ ∧
      kvGet (execList initDB [Op.create pAcme none, Op.create pAcme none]).clients 1 =
        some ⟨cleanClient pAcme, "CL-100002", none, none⟩) ∧
    List.Pairwise (· < ·) (allocsFrom s ops) := by
  refine ⟨?_, ?_, ⟨by decide, by decide⟩, allocs_pairwise ops s⟩
  · intro rid hok
    rcases create_shape s p u with ⟨e, heq⟩ | ⟨heq, hv, hk0⟩
    · rw [heq] at hok
      simp at hok
    · rw [heq] at hok
      have hrid : rid = s.nextId := (Except.ok.inj hok).symm
      subst hrid
      rw [heq]
      exact ⟨rfl, ⟨cleanClient p, "CL-" ++ toString (curOf s + 1), u, u⟩,
        kvGet_set_self _ _ _, rfl⟩
  · intro hnone
    simp [curOf, hnone]

/-- C3 witness: the first creation on a fresh store advances the counter to
100001 and stores `clientId = CL-100001`. -/
theorem C3_sequential_allocator_witness :
    (upsertClient true initDB none pAcme none).1.counter = some (curOf initDB + 1) ∧
    ∃ rec, kvGet (upsertClient true initDB none pAcme none).1.clients 0 = some rec ∧
      rec.clientId = "CL-" ++ toString (curOf initDB + 1) :=
  (C3_sequential_allocator initDB pAcme none []).1 0 (by decide)

/-- C4: for a validated edit of an existing client: when the normalized new
tax key equals the previous one, the edit succeeds and the uniqueness index
is left untouched (no churn, no self-conflict — even against an arbitrary
index state); when they differ, a non-empty new key that is unowned or owned
by this client gets its entry written to point at this client and the
non-empty previous key's entry is deleted; and on every successful edit the
stored `clientId` field is unchanged. -/
theorem C4_edit_index_maintenance (s : DB) (eid : Nat) (p : Payload)
    (u : Option String) (r : StoredClient)
    (hr : kvGet s.clients eid = some r)
    (hv : validateClient (cleanClient p) = []) :
    (keyify (cleanClient p).taxId = keyify r.data.taxId →
        (upsertClient true s (some eid) p u).2 = Except.ok eid ∧
        (upsertClient true s (some eid) p u).1.uniqueTaxIds = s.uniqueTaxIds) ∧
    (keyify (cleanClient p).taxId ≠ keyify r.data.taxId →
      keyify (cleanClient p).taxId ≠ "" →
      (kvGet s.uniqueTaxIds (keyify (cleanClient p).taxId) = none ∨
        kvGet s.uniqueTaxIds (keyify (cleanClient p).taxId) = some eid) →
        (upsertClient true s (some eid) p u).2 = Except.ok eid ∧
        kvGet (upsertClient true s (some eid) p u).1.uniqueTaxIds
          (keyify (cleanClient p).taxId) = some eid ∧
        (keyify r.data.taxId ≠ "" →
          kvGet (upsertClient true s (some eid) p u).1.uniqueTaxIds
            (keyify r.data.taxId) = none)) ∧
    (keyify (cleanClient p).taxId ≠ keyify r.data.taxId →
      keyify (cleanClient p).taxId = "" →
        (upsertClient true s (some eid) p u).2 = Except.ok eid ∧
        (keyify r.data.taxId ≠ "" →
          kvGet (upsertClient true s (some eid) p u).1.uniqueTaxIds
            (keyify r.data.taxId) = none)) ∧
    (∀ rid, (upsertClient true s (some eid) p u).2 = Except.ok rid →
        ∃ r', kvGet (upsertClient true s (some eid) p u).1.clients eid = some r' ∧
          r'.clientId = r.clientId) := by
  refine ⟨?_, ?_, ?_, ?_⟩
  · intro hkeq
    have heq : upsertClient true s (some eid) p u =
        ({ s with
            uniqueTaxIds := s.uniqueTaxIds,
            clients := kvSet s.clients eid
              { r with data := cleanClient p, updatedBy := u } }, Except.ok eid) := by
      simp [upsertClient, hv, upsertTx, hr, indexCheckEdit, hkeq]
    rw [heq]
    exact ⟨rfl, rfl⟩
  · intro hkpk hk hdisj
    have hstep : indexCheckEdit s.uniqueTaxIds (keyify (cleanClient p).taxId)
        (keyify r.data.taxId) eid =
        Except.ok (if keyify r.data.taxId = ""
          then kvSet s.uniqueTaxIds (keyify (cleanClient p).taxId) eid
          else kvDel (kvSet s.uniqueTaxIds (keyify (cleanClient p).taxId) eid)
            (keyify r.data.taxId)) := by
      rcases hdisj with hidx | hidx <;>
        simp [indexCheckEdit, hkpk, hk, hidx]
    have heq : upsertClient true s (some eid) p u =
        ({ s with
            uniqueTaxIds := (if keyify r.data.taxId = ""
              then kvSet s.uniqueTaxIds (keyify (cleanClient p).taxId) eid
              else kvDel (kvSet s.uniqueTaxIds (keyify (cleanClient p).taxId) eid)
                (keyify r.data.taxId)),
            clients := kvSet s.clients eid
              { r with data := cleanClient p, updatedBy := u } }, Except.ok eid) := by
      simp [upsertClient, hv, upsertTx, hr, hstep]
    rw [heq]
    refine ⟨rfl, ?_, ?_⟩
    · show kvGet (if _ then _ else _) _ = _
      by_cases hPK : keyify r.data.taxId = ""
      · rw [if_pos hPK]
        exact kvGet_set_self _ _ _
      · rw [if_neg hPK, kvGet_del_ne _ _ _ hkpk]
        exact kvGet_set_self _ _ _
    · intro hPK
      show kvGet (if _ then _ else _) _ = _
      rw [if_neg hPK]
      exact kvGet_del_self _ _
  · intro hkpk hk
    have hPK : keyify r.data.taxId ≠ "" := fun hc => hkpk (hk.trans hc.symm)
    have heq : upsertClient true s (some eid) p u =
        ({ s with
            uniqueTaxIds := kvDel s.uniqueTaxIds (keyify r.data.taxId),
            clients := kvSet s.clients eid
              { r with data := cleanClient p, updatedBy := u } }, Except.ok eid) := by
      simp [upsertClient, hv, upsertTx, hr, indexCheckEdit, hkpk, hk, hPK, Ne.symm hPK]
    rw [heq]
    exact ⟨rfl, fun _ => kvGet_del_self _ _⟩
  · intro rid hok
    rcases edit_shape s eid p u with ⟨e, heq⟩ | ⟨prev, idx', hprev, hv', heq, hspec⟩
    · rw [heq] at hok
      simp at hok
    · have hpr : prev = r := Option.some.inj (hprev.symm.trans hr)
      rw [heq]
      refine ⟨{ prev with data := cleanClient p, updatedBy := u },
        kvGet_set_self _ _ _, ?_⟩
      rw [hpr]

/-- C4 witness: editing client A (tax key `1234567890123`) to the tax ID
`tax/b` succeeds, writes the index entry for the normalized key `TAX_B` to
point at client A, and deletes the entry for the previous key. -/
theorem C4_edit_index_maintenance_witness :
    (upsertClient true sA (some 0) pEditB none).2 = Except.ok 0 ∧
    kvGet (upsertClient true sA (some 0) pEditB none).1.uniqueTaxIds
      (keyify (cleanClient pEditB).taxId) = some 0 ∧
    kvGet (upsertClient true sA (some 0) pEditB none).1.uniqueTaxIds
      (keyify (cleanClient pClientA).taxId) = none := by
  have h := (C4_edit_index_maintenance sA 0 pEditB none
    ⟨cleanClient pClientA, "CL-100001", none, none⟩ (by decide) (by decide)).2.1
    (by decide) (by decide) (Or.inl (by decide))
  exact ⟨h.1, h.2.1, h.2.2 (by decide)⟩

/-- C5 counterexample: deleting client A removes its record and its index
entry, and the creation payload for client C carries the same (validated,
non-empty) tax ID — yet the subsequent create does not succeed: it fails
with the internal read-after-write error, refuting the claim's
recreate-succeeds clause. -/
theorem C5_counterexample :
    (deleteClient true sA (some 0)).2 = Except.ok () ∧
    kvGet (deleteClient true sA (some 0)).1.uniqueTaxIds
      (keyify (cleanClient pClientA).taxId) = none ∧
    validateClient (cleanClient pClientC) = [] ∧
    keyify (cleanClient pClientC).taxId = keyify (cleanClient pClientA).taxId ∧
    keyify (cleanClient pClientC).taxId ≠ "" ∧
    (upsertClient true (deleteClient true sA (some 0)).1 none pClientC none).2 =
      Except.error (Err.internalErr readAfterWriteMsg) := by
  exact ⟨by decide, by decide, by decide, by decide, by decide, by decide⟩

/-- C5 (amended): deleting an existing client succeeds, removes the client
record, and removes the uniqueness-index entry of its non-empty normalized
tax key in the same transaction, so a subsequent create with that tax ID
does not report an already-exists conflict — but it does not succeed
either: like every create with a non-empty normalized tax key it fails with
the internal read-after-write error, the store left unchanged. -/
theorem C5_delete_removes_record_and_index (s : DB) (id : Nat) (r : StoredClient)
    (hr : kvGet s.clients id = some r) :
    (deleteClient true s (some id)).2 = Except.ok () ∧
    kvGet (deleteClient true s (some id)).1.clients id = none ∧
    (keyify r.data.taxId ≠ "" →
      kvGet (deleteClient true s (some id)).1.uniqueTaxIds (keyify r.data.taxId) = none) ∧
    (∀ p u, validateClient (cleanClient p) = [] →
      keyify (cleanClient p).taxId = keyify r.data.taxId →
      keyify (cleanClient p).taxId ≠ "" →
      upsertClient true (deleteClient true s (some id)).1 none p u =
        ((deleteClient true s (some id)).1,
          Except.error (Err.internalErr readAfterWriteMsg))) ∧
    Err.internalErr readAfterWriteMsg ≠ Err.alreadyExists := by
  have heq : deleteClient true s (some id) =
      ({ s with
          clients := kvDel s.clients id,
          uniqueTaxIds :=
            if keyify r.data.taxId = "" then s.uniqueTaxIds
            else kvDel s.uniqueTaxIds (keyify r.data.taxId) }, Except.ok ()) := by
    simp [deleteClient, hr]
  rw [heq]
  refine ⟨rfl, kvGet_del_self _ _, ?_, ?_, by decide⟩
  · intro hK
    show kvGet (if _ then _ else _) _ = _
    rw [if_neg hK]
    exact kvGet_del_self _ _
  · intro p u hv hkeq hkne
    exact create_keyed_fails _ p u hv hkne

/-- C5 witness: deleting client A removes its record and its index entry in
one transaction, and the subsequent same-tax-ID creation of client C fails
with the internal read-after-write error — not an already-exists
conflict. -/
theorem C5_delete_removes_record_and_index_witness :
    (deleteClient true sA (some 0)).2 = Except.ok () ∧
    kvGet (deleteClient true sA (some 0)).1.clients 0 = none ∧
    kvGet (deleteClient true sA (some 0)).1.uniqueTaxIds
      (keyify (cleanClient pClientA).taxId) = none ∧
    upsertClient true (deleteClient true sA (some 0)).1 none pClientC none =
      ((deleteClient true sA (some 0)).1,
        Except.error (Err.internalErr readAfterWriteMsg)) := by
  have h := C5_delete_removes_record_and_index sA 0
    ⟨cleanClient pClientA, "CL-100001", none, none⟩ (by decide)
  exact ⟨h.1, h.2.1, h.2.2.1 (by decide),
    h.2.2.2.1 pClientC none (by decide) (by decide) (by decide)⟩

/-- C6 counterexample: a VAT-registered payload whose tax ID trims to empty
but whose legal name is also empty fails with the invalid-argument error
naming the legal name, not with a failed-precondition error — refuting the
claim's "regardless of whether all other fields are valid". -/
theorem C6_counterexample :
    toStrO pVatNoName.taxId = "" ∧
    pVatNoName.vatRegistered = some true ∧
    (upsertClientV10 true initDB none pVatNoName none).2 =
      Except.error (Err.invalidArgumentMsg "Company Legal Name is required.") ∧
    resultFailedPre (upsertClientV10 true initDB none pVatNoName none).2 = false := by
  exact ⟨by decide, rfl, by decide, by decide⟩

/-- C6 (amended): for every input whose trimmed legal name is non-empty,
`vatRegistered` coerces to true, and whose tax ID is empty after trimming,
the part_010 `upsertClient` fails with the failed-precondition error naming
the Tax/VAT ID field and performs no writes; with an empty legal name the
call still fails without writes, but with the invalid-argument kind
naming the legal name instead. -/
theorem C6_vat_requires_taxid (s : DB) (eid : Option Nat) (p : Payload)
    (u : Option String)
    (hname : toStrO p.legalName ≠ "")
    (hvat : p.vatRegistered.getD false = true)
    (htax : toStrO p.taxId = "") :
    upsertClientV10 true s eid p u =
      (s, Except.error (Err.failedPrecondition
        "Tax/VAT ID is required when VAT Registered is checked.")) := by
  simp [upsertClientV10, cleanClientV10, cleanClient, hname, hvat, htax]

/-- C6 witness: a VAT-registered payload with legal name `VatCo` and a
whitespace tax ID fails with the failed-precondition error and no writes. -/
theorem C6_vat_requires_taxid_witness :
    upsertClientV10 true initDB none pVatNamed none =
      (initDB, Except.error (Err.failedPrecondition
        "Tax/VAT ID is required when VAT Registered is checked.")) :=
  C6_vat_requires_taxid initDB none pVatNamed none (by decide) (by decide) (by decide)

/-- C7 counterexample: a client stored with trading name `TradeCo` is edited
with a payload that omits the trading name; the edit succeeds and the stored
trading name afterwards is the empty string, not the preserved previous
value — refuting the claimed merge semantics for omitted fields. -/
theorem C7_counterexample :
    kvGet sTrade.clients 0 = some ⟨cleanClient pTrade, "CL-100001", none, none⟩ ∧
    (cleanClient pTrade).tradingName = "TradeCo" ∧
    pNoTrade.tradingName = none ∧
    (upsertClient true sTrade (some 0) pNoTrade none).2 = Except.ok 0 ∧
    (kvGet (upsertClient true sTrade (some 0) pNoTrade none).1.clients 0).map
      (fun rec => rec.data.tradingName) = some "" := by
  exact ⟨by decide, by decide, rfl, by decide, by decide⟩

/-- C7 (amended): a successful upsert-with-id overwrites the entire cleaned
field set of the stored record — every omitted submitted field is coerced to
its default (empty string, default enum value, empty list, zero) and
written — while the fields outside the cleaned set (`clientId`, the
created-by audit field) are preserved and the updated-by field is set to the
caller. -/
theorem C7_edit_overwrites_clean_fields (s : DB) (eid : Nat) (p : Payload)
    (u : Option String) (r : StoredClient) (rid : Nat)
    (hr : kvGet s.clients eid = some r)
    (hok : (upsertClient true s (some eid) p u).2 = Except.ok rid) :
    kvGet (upsertClient true s (some eid) p u).1.clients eid =
      some ⟨cleanClient p, r.clientId, r.createdBy, u⟩ := by
  rcases edit_shape s eid p u with ⟨e, heq⟩ | ⟨prev, idx', hprev, hv, heq, hspec⟩
  · rw [heq] at hok
    simp at hok
  · have hpr : prev = r := Option.some.inj (hprev.symm.trans hr)
    rw [heq]
    show kvGet (kvSet s.clients eid _) eid = _
    rw [kvGet_set_self, hpr]

/-- C7 witness: the omitted-trading-name edit rewrites the stored record to
the cleaned payload (trading name now empty) while `clientId` and the
created-by field are preserved. -/
theorem C7_edit_overwrites_clean_fields_witness :
    kvGet (upsertClient true sTrade (some 0) pNoTrade none).1.clients 0 =
      some ⟨cleanClient pNoTrade, "CL-100001", none, none⟩ :=
  C7_edit_overwrites_clean_fields sTrade 0 pNoTrade none
    ⟨cleanClient pTrade, "CL-100001", none, none⟩ 0 (by decide) (by decide)

/-- C8: the booking conflict check holds exactly when some visible booking
on the candidate's resource, other than the booking being edited (excluded
by ID), has non-empty bounds and satisfies the half-open-interval predicate
`s1 < e2 AND e1 > s2` against the candidate's non-empty bounds; concretely,
against booking `[10:00, 11:00)` on the same resource it is true for the
candidate `[10:30, 11:30)`, false for the adjacent `[11:00, 12:00)`, and
false for the booking's own interval when excluded by its ID. -/
theorem C8_booking_conflict_check :
    (∀ (bs : List Booking) (eid : Option String) (rid sS eS : String),
        hasConflict bs eid rid sS eS = true ↔
          ∃ b ∈ bs, b.resourceId = rid ∧ some b.id ≠ eid ∧
            sS ≠ "" ∧ eS ≠ "" ∧ b.start ≠ "" ∧ b.endT ≠ "" ∧
            strLt sS b.endT = true ∧ strLt b.start eS = true) ∧
    hasConflict [bkTen] none "r1" "10:30" "11:30" = true ∧
    hasConflict [bkTen] none "r1" "11:00" "12:00" = false ∧
    hasConflict [bkTen] (some "b1") "r1" "10:00" "11:00" = false := by
  refine ⟨?_, by decide, by decide, by decide⟩
  intro bs eid rid sS eS
  constructor
  · intro h
    obtain ⟨b, hmem, hov⟩ := List.any_eq_true.mp h
    obtain ⟨hb, hcond⟩ := List.mem_filter.mp hmem
    rw [Bool.and_eq_true, decide_eq_true_eq, decide_eq_true_eq] at hcond
    unfold overlaps at hov
    split at hov
    · cases hov
    · rename_i hcond2
      push_neg at hcond2
      obtain ⟨hs, he, hbs, hbe⟩ := hcond2
      rw [Bool.and_eq_true] at hov
      exact ⟨b, hb, hcond.1, hcond.2, hs, he, hbs, hbe, hov.1, hov.2⟩
  · rintro ⟨b, hb, h1, h2, hs, he, hbs, hbe, hlt1, hlt2⟩
    refine List.any_eq_true.mpr ⟨b, List.mem_filter.mpr ⟨hb, ?_⟩, ?_⟩
    · rw [Bool.and_eq_true, decide_eq_true_eq, decide_eq_true_eq]
      exact ⟨h1, h2⟩
    · unfold overlaps
      rw [if_neg (by push_neg; exact ⟨hs, he, hbs, hbe⟩), Bool.and_eq_true]
      exact ⟨hlt1, hlt2⟩

/-- C9 counterexample: item `i1` stores the non-numeric quantity `"abc"`; an
adjustment by the finite non-zero delta 5 writes NaN as the new quantity,
not `0 + 5` — refuting the claim that a non-numeric stored quantity is
treated as 0. -/
theorem C9_counterexample :
    kvGet invStStr.items "i1" = some ⟨"Camera", JsVal.jstr "abc", none⟩ ∧
    (kvGet (applyDelta invStStr "i1" (JsVal.jnum 5) "adjustment" none).items "i1").map
      (fun it => it.quantity) = some JsVal.jnan ∧
    some JsVal.jnan ≠ some (JsVal.jnum (0 + 5)) := by
  exact ⟨by decide, by decide, by decide⟩

/-- C9 (amended): a zero, NaN, or absent requested delta makes `applyDelta`
a complete no-op (no quantity write, no event); for a finite non-zero delta
on an existing item an adjustment event is appended and the quantity is set
to `current + delta`, where `current` is the stored quantity when it
converts to a finite number (a missing or otherwise falsy stored quantity
counting as 0), while a stored quantity that converts to NaN — a truthy
non-numeric string — makes the written quantity NaN. -/
theorem C9_adjust_quantity (st : InvDB) (itemId : String) (dval : JsVal)
    (reason : String) (u : Option String) :
    (toNumber (jsOrZero dval) = none ∨ toNumber (jsOrZero dval) = some 0 →
      applyDelta st itemId dval reason u = st) ∧
    (∀ n, toNumber (jsOrZero dval) = some n → n ≠ 0 →
      ∀ it, kvGet st.items itemId = some it →
        (applyDelta st itemId dval reason u).events =
          st.events ++ [⟨itemId, n, reason, u⟩] ∧
        (∀ m, toNumber (jsOrZero it.quantity) = some m →
          kvGet (applyDelta st itemId dval reason u).items itemId =
            some ⟨it.name, JsVal.jnum (m + n), u⟩) ∧
        (it.quantity = JsVal.jmissing →
          kvGet (applyDelta st itemId dval reason u).items itemId =
            some ⟨it.name, JsVal.jnum (0 + n), u⟩) ∧
        (toNumber (jsOrZero it.quantity) = none →
          kvGet (applyDelta st itemId dval reason u).items itemId =
            some ⟨it.name, JsVal.jnan, u⟩)) := by
  constructor
  · intro h
    rcases h with h0 | h0 <;> simp [applyDelta, h0]
  · intro n hn hnz it hit
    refine ⟨?_, ?_, ?_, ?_⟩
    · cases hq : toNumber (jsOrZero it.quantity) <;>
        simp [applyDelta, hn, hnz, hit, hq]
    · intro m hm
      simp [applyDelta, hn, hnz, hit, hm, kvGet_set_self]
    · intro hq
      have hm : toNumber (jsOrZero it.quantity) = some 0 := by
        rw [hq]
        rfl
      simp [applyDelta, hn, hnz, hit, hm, kvGet_set_self]
    · intro hq
      simp [applyDelta, hn, hnz, hit, hq, kvGet_set_self]

/-- C9 witness: a zero delta on an existing item leaves the whole inventory
state — quantity and event log — unchanged. -/
theorem C9_adjust_quantity_witness :
    applyDelta invStNum "i2" (JsVal.jnum 0) "adjustment" none = invStNum :=
  (C9_adjust_quantity invStNum "i2" (JsVal.jnum 0) "adjustment" none).1
    (Or.inr (by decide))

/-- C10: a quantity adjustment with a finite non-zero delta whose item ID
refers to no stored inventory item returns normally, writes no item, and
still appends an adjustment event recording that delta to the event log. -/
theorem C10_missing_item_event (st : InvDB) (itemId : String) (dval : JsVal)
    (reason : String) (u : Option String) (n : Int)
    (hn : toNumber (jsOrZero dval) = some n) (hnz : n ≠ 0)
    (hmiss : kvGet st.items itemId = none) :
    (applyDelta st itemId dval reason u).items = st.items ∧
    (applyDelta st itemId dval reason u).events =
      st.events ++ [⟨itemId, n, reason, u⟩] := by
  simp [applyDelta, hn, hnz, hmiss]

/-- C10 witness: adjusting the nonexistent item `ghost` by 5 leaves the
items unchanged and appends the delta-5 audit event. -/
theorem C10_missing_item_event_witness :
    (applyDelta invStEmpty "ghost" (JsVal.jnum 5) "adjustment" none).items =
      invStEmpty.items ∧
    (applyDelta invStEmpty "ghost" (JsVal.jnum 5) "adjustment" none).events =
      invStEmpty.events ++ [⟨"ghost", 5, "adjustment", none⟩] :=
  C10_missing_item_event invStEmpty "ghost" (JsVal.jnum 5) "adjustment" none 5
    (by decide) (by decide) (by decide)

end JPS
